import Mathlib

/-!
Shallow embedding of the gomigrate schema-migration runner.

The embedding follows `driver.go`: the filename parser
(`parseMigrationFileName`), the migration-set resolver (`loadMigrations`
with its dedup inner loop `insertMigration` and the `slices.SortFunc`
call), the transactional executor (`execMigration`, with the database and
transaction effects modelled as an explicit environment of step outcomes
and a durable-state record), and the orchestrator (`Migrate`, with the
driver adapter's calls modelled as environment fields and the executor
abstracted as a function parameter).

Go machine integers (`int`, 64-bit) are modelled as `Int`, with the
wraparound of the sort comparator's subtraction made explicit via
`wrap64`.  Go strings are modelled through their character lists; all
strings involved here are ASCII, where the byte-level Go functions and
the character-level models agree.
-/

namespace Gomigrate

/-- Model of Go `strings.CutSuffix s suffix`: `some` of the remaining
stem when `suffix` is a suffix of `s`, `none` otherwise. -/
def cutSuffix (s suffix : String) : Option String :=
  let n := s.data.length
  let k := suffix.data.length
  if k ≤ n ∧ s.data.drop (n - k) = suffix.data then
    some (String.mk (s.data.take (n - k)))
  else
    none

/-- Model of Go `strings.HasSuffix`. -/
def hasSuffix (s suffix : String) : Bool :=
  (cutSuffix s suffix).isSome

/-- Split a character list at the first occurrence of `c`:
`some (before, after)` when `c` occurs, `none` otherwise. -/
def splitFirstAux (c : Char) : List Char → Option (List Char × List Char)
  | [] => none
  | x :: xs =>
    if x = c then some ([], xs)
    else (splitFirstAux c xs).map (fun p => (x :: p.1, p.2))

/-- Model of Go `strings.SplitN(s, sep, 2)` for a one-character
separator: `some (before, after)` exactly when the returned slice has
two elements, `none` when it has one (no separator present). -/
def splitFirst (s : String) (c : Char) : Option (String × String) :=
  match splitFirstAux c s.data with
  | none => none
  | some p => some (String.mk p.1, String.mk p.2)

/-- Model of Go `strings.ReplaceAll s c r` for one-character old/new. -/
def replaceAll (s : String) (c r : Char) : String :=
  String.mk (s.data.map (fun x => if x = c then r else x))

/-- Model of Go `path.Join dir file` for a clean, nonempty directory and
file name as used by the loader. -/
def pathJoin (dir file : String) : String :=
  dir ++ "/" ++ file

/-- Accumulate decimal digits; fails on any non-digit character. -/
def parseDigitsAux : List Char → Nat → Option Nat
  | [], acc => some acc
  | c :: cs, acc =>
    if c.isDigit then parseDigitsAux cs (10 * acc + (c.toNat - 48))
    else none

/-- Parse a nonempty all-digit character list into a natural number. -/
def parseDigits : List Char → Option Nat
  | [] => none
  | c :: cs => parseDigitsAux (c :: cs) 0

/-- Model of Go `strconv.Atoi`: optional sign, at least one decimal
digit, value within the signed 64-bit range; any failure is an error
(the Go code only inspects `err != nil`). -/
def atoi (s : String) : Except String Int :=
  let p : Int × List Char :=
    match s.data with
    | '-' :: rest => (-1, rest)
    | '+' :: rest => (1, rest)
    | cs => (1, cs)
  match parseDigits p.2 with
  | none => Except.error ("failed to parse migration version: invalid syntax: " ++ s)
  | some n =>
    let v : Int := p.1 * (n : Int)
    if v < -(2 ^ 63) ∨ (2 ^ 63 : Int) ≤ v then
      Except.error ("failed to parse migration version: value out of range: " ++ s)
    else
      Except.ok v

/-- Two's-complement wraparound of a 64-bit signed subtraction result:
the value the Go expression `m1.version - m2.version` (of type `int`)
actually takes. -/
def wrap64 (x : Int) : Int :=
  (x + 2 ^ 63) % 2 ^ 64 - 2 ^ 63

/-- Source constant `migrationFileExt = ".sql"`. -/
def migrationFileExt : String := ".sql"

/-- Source constant `migrationSeparator = "_"` (one character). -/
def migrationSeparator : Char := '_'

/-- Source constant `migrationDriverSeparator = "."` (one character). -/
def migrationDriverSeparator : Char := '.'

/-- Source struct `migration`: one discovered migration file. -/
structure migration where
  name : String
  version : Int
  driver : String
  filePath : String
deriving DecidableEq, Repr

/-- Error values produced by `parseMigrationFileName`, one constructor
per `fmt.Errorf` site, carrying the data the message interpolates. -/
inductive ParseError
  | invalidExtension (fileName : String)
  | invalidFileName (fileName : String)
  | parseVersion (cause : String)
deriving DecidableEq, Repr

/-- Error values produced by `loadMigrations`: the wrapped directory
read failure, the wrapped parse failure, and the duplicate
version-and-driver conflict naming both driver tags. -/
inductive LoadError
  | readDirFailed (dir : String) (cause : String)
  | parseFailed (e : ParseError)
  | duplicateVersionAndDriver (version : Int) (driver1 driver2 : String)
deriving DecidableEq, Repr

/-- The driver-suffix split step of `parseMigrationFileName`:
`parts := strings.SplitN(name, ".", 2)`; with two parts the first is
the remaining stem and the second the driver tag, otherwise the driver
tag is empty. -/
def driverSplit (stem : String) : String × String :=
  match splitFirst stem migrationDriverSeparator with
  | some p => p
  | none => (stem, "")

/-- Source function `parseMigrationFileName(dir, fileName)`: cut the
`.sql` suffix, split off the driver tag at the first dot, split the
rest at the first underscore into version and name, normalize the
name's underscores to spaces, and parse the version with `Atoi`. -/
def parseMigrationFileName (dir : String) (fileName : String) :
    Except ParseError migration :=
  match cutSuffix fileName migrationFileExt with
  | none => Except.error (ParseError.invalidExtension fileName)
  | some stem =>
    let pd := driverSplit stem
    match splitFirst pd.1 migrationSeparator with
    | none => Except.error (ParseError.invalidFileName fileName)
    | some vr =>
      let name := replaceAll vr.2 migrationSeparator ' '
      match atoi vr.1 with
      | Except.error e => Except.error (ParseError.parseVersion e)
      | Except.ok version =>
        Except.ok { name := name, version := version, driver := pd.2,
                    filePath := pathJoin dir fileName }

/-- One directory entry as reported by `fs.ReadDir`. -/
structure DirEntry where
  name : String
  isDir : Bool
deriving DecidableEq, Repr

/-- The dedup inner loop of `loadMigrations` (the `for i, m := range
migrations` loop plus the trailing `append`): scan the accumulated list
for the first entry sharing `mig`'s version; on a match with the same
driver tag fail, on a match where `mig`'s tag equals the active driver
replace that slot, on any other match drop `mig` (`continue outer`);
with no match append `mig` at the end. -/
def insertMigration (driver : String) (mig : migration) :
    List migration → Except LoadError (List migration)
  | [] => Except.ok [mig]
  | m :: rest =>
    if m.version = mig.version then
      if m.driver = mig.driver then
        Except.error (LoadError.duplicateVersionAndDriver mig.version m.driver mig.driver)
      else if mig.driver = driver then
        Except.ok (mig :: rest)
      else
        Except.ok (m :: rest)
    else
      (insertMigration driver mig rest).map (fun l => m :: l)

/-- The entry loop of `loadMigrations`: skip directories, skip files
without the `.sql` suffix, parse the rest (propagating parse failures),
skip migrations whose driver tag is nonempty and differs from the
active driver, and feed the survivors through the dedup loop. -/
def loadMigrationsLoop (dir driver : String) :
    List DirEntry → List migration → Except LoadError (List migration)
  | [], acc => Except.ok acc
  | e :: es, acc =>
    if e.isDir then loadMigrationsLoop dir driver es acc
    else if hasSuffix e.name migrationFileExt then
      match parseMigrationFileName dir e.name with
      | Except.error pe => Except.error (LoadError.parseFailed pe)
      | Except.ok mig =>
        if mig.driver ≠ "" ∧ mig.driver ≠ driver then
          loadMigrationsLoop dir driver es acc
        else
          match insertMigration driver mig acc with
          | Except.error le => Except.error le
          | Except.ok acc2 => loadMigrationsLoop dir driver es acc2
    else loadMigrationsLoop dir driver es acc

/-- The comparator passed to `slices.SortFunc`: the Go expression
`m1.version - m2.version` on 64-bit `int`, wraparound included. -/
def cmpMigration (m1 m2 : migration) : Int :=
  wrap64 (m1.version - m2.version)

/-- Insert into a comparator-sorted list, before the first element the
comparator does not place strictly after `m`. -/
def insertSorted (m : migration) : List migration → List migration
  | [] => [m]
  | x :: xs => if cmpMigration m x ≤ 0 then m :: x :: xs else x :: insertSorted m xs

/-- Model of the `slices.SortFunc(migrations, cmp)` call: a comparison
sort driven by `cmpMigration`.  For the inputs arising here any two
comparison sorts agree wherever the comparator is consistent. -/
def sortMigrations (l : List migration) : List migration :=
  l.foldr insertSorted []

/-- Source function `loadMigrations(fs, dir, driver)`: the `fs.ReadDir`
outcome is passed in as an `Except`; a read failure is wrapped with the
directory, otherwise the entry loop runs on an empty accumulator and
the result is sorted. -/
def loadMigrations (entries : Except String (List DirEntry)) (dir driver : String) :
    Except LoadError (List migration) :=
  match entries with
  | Except.error e => Except.error (LoadError.readDirFailed dir e)
  | Except.ok es => (loadMigrationsLoop dir driver es []).map sortMigrations

/-- Error values produced by `execMigration`, one constructor per
`fmt.Errorf`/`Commit` site. -/
inductive ExecError
  | readFileFailed (cause : String)
  | beginTxFailed (cause : String)
  | execFailed (cause : String)
  | setVersionFailed (cause : String)
  | commitFailed (cause : String)
deriving DecidableEq, Repr

/-- Source struct `MigrateError`: the migration-scoped error wrapper. -/
structure MigrateError where
  Name : String
  FileName : String
  Version : Int
  Err : ExecError
deriving DecidableEq, Repr

/-- Source function `wrapMigrateErr`. -/
def wrapMigrateErr (name fileName : String) (version : Int) (err : ExecError) :
    MigrateError :=
  { Name := name, FileName := fileName, Version := version, Err := err }

/-- Source method `(*MigrateError).Unwrap`: the preserved cause. -/
def MigrateError.Unwrap (e : MigrateError) : ExecError := e.Err

/-- Error values returned by `Migrate`, one constructor per return
site, carrying the data the corresponding Go error interpolates. -/
inductive MigrateErr
  | noDatabase
  | noDriver
  | loadFailed (e : LoadError)
  | noMigrationsFound (dir : String)
  | createVersionTableFailed (cause : String)
  | getVersionFailed (cause : String)
  | schemaAhead (current latest : Int)
  | migrationFailed (e : MigrateError)
deriving DecidableEq, Repr

/-- Durable database effects of one migration: its SQL body's schema
change and the version record inserted by `driver.AddVersion`. -/
inductive DbAction
  | schemaChange (sqlBody : String)
  | versionRecord (version : Int)
deriving DecidableEq, Repr

/-- Durable state of the target database: the committed actions, in
commit order.  Actions buffered in an open transaction are not here
until `Commit` succeeds. -/
structure DbState where
  committed : List DbAction
deriving DecidableEq, Repr

/-- Outcomes of the external steps `execMigration` performs, in source
order: `fs.ReadFile`, `db.BeginTx`, `tx.ExecContext` (keyed by the SQL
body it is handed), `driver.AddVersion`, `tx.Commit`, and the outcome
of the discarded `tx.Rollback` calls.  `none`/`Except.ok` means the
step succeeds. -/
structure ExecEnv where
  readFileResult : Except String String
  beginTxResult : Option String
  execResult : String → Option String
  addVersionResult : Option String
  commitResult : Option String
  rollbackResult : Option String

/-- Source function `execMigration`: read the file, begin a
transaction, execute the body, add the version record, commit.  On an
execution or version-write failure the transaction is rolled back
(`_ = tx.Rollback()`, outcome discarded) and the durable state is
unchanged; only a successful commit appends the buffered schema change
and version record to the durable state. -/
def execMigration (env : ExecEnv) (m : migration) (db : DbState) :
    Except ExecError Unit × DbState :=
  match env.readFileResult with
  | Except.error e => (Except.error (ExecError.readFileFailed e), db)
  | Except.ok data =>
    match env.beginTxResult with
    | some e => (Except.error (ExecError.beginTxFailed e), db)
    | none =>
      match env.execResult data with
      | some e =>
        let _ := env.rollbackResult
        (Except.error (ExecError.execFailed e), db)
      | none =>
        match env.addVersionResult with
        | some e =>
          let _ := env.rollbackResult
          (Except.error (ExecError.setVersionFailed e), db)
        | none =>
          match env.commitResult with
          | some e => (Except.error (ExecError.commitFailed e), db)
          | none =>
            (Except.ok (),
             { committed := db.committed ++
                 [DbAction.schemaChange data, DbAction.versionRecord m.version] })

/-- The `for _, m := range migrations` loop of `Migrate`: skip
migrations with `version <= current`, run the executor on the rest in
list order, and on the first failure return the wrapped
migration-scoped error at once. -/
def applyMigrations (exec : migration → Except ExecError Unit) (current : Int) :
    List migration → Except MigrateErr Unit
  | [] => Except.ok ()
  | m :: rest =>
    if m.version ≤ current then applyMigrations exec current rest
    else
      match exec m with
      | Except.error e =>
        Except.error (MigrateErr.migrationFailed
          (wrapMigrateErr m.name m.filePath m.version e))
      | Except.ok _ => applyMigrations exec current rest

/-- Inputs and external-step outcomes of one `Migrate` run: presence of
the database handle and driver constructor, the directory listing, the
configured directory, the driver adapter's `Name()`, the outcomes of
`CreateVersionTable` and `GetVersion`, and the transactional executor
(`execMigration` specialised to this run's database and file source)
abstracted as a function of the migration. -/
structure MigrateEnv where
  dbPresent : Bool
  newDriverPresent : Bool
  entries : Except String (List DirEntry)
  directory : String
  driverName : String
  createVersionTableResult : Option String
  getVersionResult : Except String Int
  exec : migration → Except ExecError Unit

/-- Source function `Migrate`: validate inputs, load and sort the
migrations, reject an empty set, create the version table, read the
current version, no-op when it equals the last migration's version,
fail when it exceeds it, and otherwise run the applying loop. -/
def Migrate (env : MigrateEnv) : Except MigrateErr Unit :=
  if env.dbPresent = false then Except.error MigrateErr.noDatabase
  else if env.newDriverPresent = false then Except.error MigrateErr.noDriver
  else
    match loadMigrations env.entries env.directory env.driverName with
    | Except.error e => Except.error (MigrateErr.loadFailed e)
    | Except.ok migrations =>
      match migrations.getLast? with
      | none => Except.error (MigrateErr.noMigrationsFound env.directory)
      | some lastMigration =>
        match env.createVersionTableResult with
        | some c => Except.error (MigrateErr.createVersionTableFailed c)
        | none =>
          match env.getVersionResult with
          | Except.error c => Except.error (MigrateErr.getVersionFailed c)
          | Except.ok currentVersion =>
            if currentVersion = lastMigration.version then Except.ok ()
            else if currentVersion > lastMigration.version then
              Except.error (MigrateErr.schemaAhead currentVersion lastMigration.version)
            else applyMigrations env.exec currentVersion migrations

/-! ### Helper lemmas -/

/-- Scanning the dedup loop past a prefix whose versions all differ from
the new migration's version just carries the prefix along. -/
theorem insertMigration_append_of_ne (driver : String) (mig : migration)
    (pre : List migration) (hpre : ∀ x ∈ pre, x.version ≠ mig.version)
    (l : List migration) :
    insertMigration driver mig (pre ++ l)
      = (insertMigration driver mig l).map (fun r => pre ++ r) := by
  induction pre with
  | nil =>
    simp only [List.nil_append]
    cases insertMigration driver mig l <;> rfl
  | cons x xs ih =>
    have hx : x.version ≠ mig.version := hpre x (List.mem_cons_self x xs)
    have hxs : ∀ y ∈ xs, y.version ≠ mig.version :=
      fun y hy => hpre y (List.mem_cons_of_mem x hy)
    rw [List.cons_append]
    show (if x.version = mig.version then _ else _) = _
    rw [if_neg hx, ih hxs]
    cases insertMigration driver mig l <;> rfl

/-- The applying loop ignores a leading block of migrations that are
each either skipped (version at most current) or executed successfully. -/
theorem applyMigrations_append_skip (exec : migration → Except ExecError Unit)
    (current : Int) (pre : List migration)
    (hpre : ∀ x ∈ pre, x.version ≤ current ∨ exec x = Except.ok ())
    (l : List migration) :
    applyMigrations exec current (pre ++ l) = applyMigrations exec current l := by
  induction pre with
  | nil => rfl
  | cons x xs ih =>
    have hx := hpre x (List.mem_cons_self x xs)
    have hxs : ∀ y ∈ xs, y.version ≤ current ∨ exec y = Except.ok () :=
      fun y hy => hpre y (List.mem_cons_of_mem x hy)
    by_cases hle : x.version ≤ current
    · simp [applyMigrations, if_pos hle, ih hxs]
    · have hok : exec x = Except.ok () := (hx.resolve_left hle)
      simp [applyMigrations, if_neg hle, hok, ih hxs]

/-- The applying loop computes the same result on the sublist of
pending migrations (version strictly above current): migrations with
version at most current are skipped. -/
theorem applyMigrations_filter_skip (f : migration → Except ExecError Unit)
    (current : Int) (l : List migration) :
    applyMigrations f current l
      = applyMigrations f current (l.filter (fun x => decide (current < x.version))) := by
  induction l with
  | nil => rfl
  | cons m rest ih =>
    by_cases hle : m.version ≤ current
    · have hnlt : ¬ current < m.version := not_lt.mpr hle
      simp [applyMigrations, if_pos hle, List.filter_cons, hnlt, ih]
    · have hlt : current < m.version := not_le.mp hle
      cases hf : f m with
      | error e => simp [applyMigrations, if_neg hle, List.filter_cons, hlt, hf]
      | ok u => simp [applyMigrations, if_neg hle, List.filter_cons, hlt, hf, ih]

/-- In a list whose adjacent versions strictly increase, every
element's version is at most the last element's version. -/
theorem version_le_getLast (l : List migration) (x : migration)
    (hc : List.Chain' (fun a b => a.version < b.version) l)
    (hl : l.getLast? = some x) : ∀ m ∈ l, m.version ≤ x.version := by
  induction l with
  | nil => simp at hl
  | cons a t ih =>
    cases t with
    | nil =>
      simp at hl
      subst hl
      intro m hm
      simp at hm
      subst hm
      exact le_refl _
    | cons b t2 =>
      rw [List.chain'_cons] at hc
      have hl2 : (b :: t2).getLast? = some x := by
        simpa [List.getLast?_cons_cons] using hl
      intro m hm
      rcases List.mem_cons.mp hm with hm | hm
      · subst hm
        have hb := ih hc.2 hl2 b (List.mem_cons_self b t2)
        exact le_of_lt (lt_of_lt_of_le hc.1 hb)
      · exact ih hc.2 hl2 m hm

/-- The loader's entry loop leaves the accumulator untouched when no
entry carries the `.sql` suffix. -/
theorem loadMigrationsLoop_skip_all (dir driver : String) (entries : List DirEntry)
    (h : ∀ e ∈ entries, hasSuffix e.name migrationFileExt = false)
    (acc : List migration) :
    loadMigrationsLoop dir driver entries acc = Except.ok acc := by
  induction entries with
  | nil => rfl
  | cons e es ih =>
    have he := h e (List.mem_cons_self e es)
    have hes : ∀ y ∈ es, hasSuffix y.name migrationFileExt = false :=
      fun y hy => h y (List.mem_cons_of_mem e hy)
    by_cases hd : e.isDir
    · simp [loadMigrationsLoop, hd, ih hes]
    · simp [loadMigrationsLoop, hd, he, ih hes]

/-- A split that returns `none` means the separator does not occur. -/
theorem splitFirstAux_eq_none_iff (c : Char) (l : List Char) :
    splitFirstAux c l = none ↔ c ∉ l := by
  induction l with
  | nil => simp [splitFirstAux]
  | cons x xs ih =>
    by_cases hx : x = c
    · simp [splitFirstAux, hx]
    · simp [splitFirstAux, hx, Option.map_eq_none', ih, Ne.symm hx]

/-- A split that returns `none` means the separator does not occur in
the string. -/
theorem splitFirst_eq_none_iff (s : String) (c : Char) :
    splitFirst s c = none ↔ c ∉ s.data := by
  unfold splitFirst
  rw [← splitFirstAux_eq_none_iff c s.data]
  cases splitFirstAux c s.data <;> simp

/-- A successful split decomposes the list at the first occurrence of
the separator: the left part is separator-free. -/
theorem splitFirstAux_eq_some (c : Char) (l : List Char) :
    ∀ a b, splitFirstAux c l = some (a, b) → l = a ++ c :: b ∧ c ∉ a := by
  induction l with
  | nil => intro a b h; simp [splitFirstAux] at h
  | cons x xs ih =>
    intro a b h
    by_cases hx : x = c
    · rw [splitFirstAux, if_pos hx] at h
      simp at h
      obtain ⟨ha, hb⟩ := h
      subst ha
      subst hb
      simp [hx]
    · rw [splitFirstAux, if_neg hx] at h
      cases hs : splitFirstAux c xs with
      | none => rw [hs] at h; simp at h
      | some p =>
        rw [hs] at h
        simp at h
        obtain ⟨ha, hb⟩ := h
        obtain ⟨hxs, hnp⟩ := ih p.1 p.2 (by rw [hs])
        subst hb
        constructor
        · rw [← ha, hxs]
          simp
        · rw [← ha]
          intro hmem
          rcases List.mem_cons.mp hmem with hh | hh
          · exact hx hh.symm
          · exact hnp hh

/-- A successful string split decomposes the string's characters at the
first occurrence of the separator. -/
theorem splitFirst_eq_some (s : String) (c : Char) (p1 p2 : String)
    (h : splitFirst s c = some (p1, p2)) :
    s.data = p1.data ++ c :: p2.data ∧ c ∉ p1.data := by
  unfold splitFirst at h
  cases hs : splitFirstAux c s.data with
  | none => rw [hs] at h; simp at h
  | some p =>
    rw [hs] at h
    simp at h
    obtain ⟨h1, h2⟩ := h
    have := splitFirstAux_eq_some c s.data p.1 p.2 (by rw [hs])
    rw [← h1, ← h2]
    exact this

/-! ### Claim theorems -/

/-- Claim C1: in the resolver's dedup step, when a kept migration `mig`
meets the first accumulated migration `m` sharing its version, then: if
both carry the same driver tag, resolution fails with the
duplicate-version-and-driver error naming both driver tags; if their
tags differ (each tag being empty or the active driver, as driver
filtering guarantees), the migration whose tag equals the active driver
occupies that version slot, the universal one does not, and no error is
raised. -/
theorem c1_version_conflict_resolution (driver : String) (mig m : migration)
    (pre rest : List migration)
    (hpre : ∀ x ∈ pre, x.version ≠ mig.version)
    (hv : m.version = mig.version) :
    (m.driver = mig.driver →
      insertMigration driver mig (pre ++ m :: rest) =
        Except.error (LoadError.duplicateVersionAndDriver mig.version m.driver mig.driver))
    ∧ (m.driver ≠ mig.driver → (m.driver = "" ∨ m.driver = driver) →
        (mig.driver = "" ∨ mig.driver = driver) →
        insertMigration driver mig (pre ++ m :: rest) =
          Except.ok (pre ++ (if mig.driver = driver then mig else m) :: rest)
        ∧ (if mig.driver = driver then mig else m).driver = driver) := by
  rw [insertMigration_append_of_ne driver mig pre hpre]
  constructor
  · intro hd
    simp [insertMigration, Except.map, hv, hd]
  · intro hd hm hmig
    rcases hmig with hmig | hmig
    · have hm2 : m.driver = driver := by
        rcases hm with h | h
        · exact absurd (h.trans hmig.symm) hd
        · exact h
      have hcond : ¬ mig.driver = driver := fun h => hd (hm2.trans h.symm)
      constructor
      · simp [insertMigration, Except.map, hv, hd, hcond]
      · simp [if_neg hcond, hm2]
    · have hmd : ¬ m.driver = driver := fun h => hd (h.trans hmig.symm)
      constructor
      · simp [insertMigration, Except.map, hv, hd, hmd, hmig]
      · simp [if_pos hmig, hmig]

/-- Witness for C1: with active driver `postgres`, a driver-tagged
migration arriving at a version slot held by a universal one replaces
it without error. -/
theorem c1_witness :
    insertMigration "postgres" ⟨"b", 1, "postgres", "migrations/1_b.postgres.sql"⟩
        [⟨"a", 1, "", "migrations/1_a.sql"⟩]
      = Except.ok [⟨"b", 1, "postgres", "migrations/1_b.postgres.sql"⟩] := by
  have h := ((c1_version_conflict_resolution "postgres"
      ⟨"b", 1, "postgres", "migrations/1_b.postgres.sql"⟩
      ⟨"a", 1, "", "migrations/1_a.sql"⟩ [] []
      (fun x hx => absurd hx (List.not_mem_nil x)) rfl).2
    (by decide) (Or.inl rfl) (Or.inr rfl)).1
  simpa using h

/-- Claim C2: the applying loop of `Migrate` visits the resolved,
ascending list in order, skips every migration with version at most the
stored current version, and on the first executor failure returns at
once the migration-scoped error carrying the failing migration's name,
file path and version, with the cause preserved through `Unwrap`; the
result does not depend on the executor's behaviour at any later
migration, and equals the run over only the pending migrations. -/
theorem c2_fail_fast (exec : migration → Except ExecError Unit) (current : Int)
    (pre post : List migration) (m : migration) (e : ExecError)
    (_hsorted : List.Chain' (fun a b => a.version < b.version) (pre ++ m :: post))
    (hpre : ∀ x ∈ pre, x.version ≤ current ∨ exec x = Except.ok ())
    (hm : current < m.version) (hfail : exec m = Except.error e) :
    applyMigrations exec current (pre ++ m :: post)
        = Except.error (MigrateErr.migrationFailed (wrapMigrateErr m.name m.filePath m.version e))
    ∧ (wrapMigrateErr m.name m.filePath m.version e).Unwrap = e
    ∧ (∀ exec2 : migration → Except ExecError Unit,
        (∀ x ∈ pre, exec2 x = exec x) → exec2 m = Except.error e →
        applyMigrations exec2 current (pre ++ m :: post)
          = Except.error (MigrateErr.migrationFailed (wrapMigrateErr m.name m.filePath m.version e)))
    ∧ (∀ (f : migration → Except ExecError Unit) (l : List migration),
        applyMigrations f current l
          = applyMigrations f current (l.filter (fun x => decide (current < x.version)))) := by
  have key : ∀ g : migration → Except ExecError Unit,
      (∀ x ∈ pre, x.version ≤ current ∨ g x = Except.ok ()) → g m = Except.error e →
      applyMigrations g current (pre ++ m :: post)
        = Except.error (MigrateErr.migrationFailed (wrapMigrateErr m.name m.filePath m.version e)) := by
    intro g hg hgm
    rw [applyMigrations_append_skip g current pre hg]
    simp [applyMigrations, if_neg (not_le.mpr hm), hgm]
  refine ⟨key exec hpre hfail, rfl, ?_, fun f l => applyMigrations_filter_skip f current l⟩
  intro exec2 hagree hm2
  apply key exec2 ?_ hm2
  intro x hx
  rcases hpre x hx with h | h
  · exact Or.inl h
  · exact Or.inr ((hagree x hx).trans h)

/-- Witness for C2: with current version 1, migration 1 is skipped,
migration 2 fails and its wrapped error is returned; migration 3 is
never consulted. -/
theorem c2_witness :
    applyMigrations
        (fun mg => if mg.version = 2 then Except.error (ExecError.execFailed "syntax error")
                   else Except.ok ())
        1
        ([⟨"a", 1, "", "migrations/1_a.sql"⟩] ++
          (⟨"b", 2, "", "migrations/2_b.sql"⟩ : migration) :: [⟨"c", 3, "", "migrations/3_c.sql"⟩])
      = Except.error (MigrateErr.migrationFailed
          (wrapMigrateErr "b" "migrations/2_b.sql" 2 (ExecError.execFailed "syntax error"))) :=
  (c2_fail_fast
      (fun mg => if mg.version = 2 then Except.error (ExecError.execFailed "syntax error")
                 else Except.ok ())
      1 [⟨"a", 1, "", "migrations/1_a.sql"⟩] [⟨"c", 3, "", "migrations/3_c.sql"⟩]
      ⟨"b", 2, "", "migrations/2_b.sql"⟩ (ExecError.execFailed "syntax error")
      (by simp [List.chain'_cons])
      (by intro x hx; simp at hx; subst hx; exact Or.inl (by norm_num))
      (by norm_num) rfl).1

/-- Claim C3: for one migration run by the transactional executor, the
schema change and the version record become durable together or not at
all: the result never depends on the rollback outcome; a successful run
appends exactly the schema change and the version record to the durable
state; every failing run leaves the durable state unchanged; an SQL
execution failure yields the execution error and an unchanged state; a
version-write failure yields the set-version error and an unchanged
state. -/
theorem c3_transactional_atomicity (env : ExecEnv) (m : migration) (db : DbState) :
    (∀ r, execMigration { env with rollbackResult := r } m db = execMigration env m db)
    ∧ (∀ data, env.readFileResult = Except.ok data →
        (execMigration env m db).1 = Except.ok () →
        (execMigration env m db).2.committed
          = db.committed ++ [DbAction.schemaChange data, DbAction.versionRecord m.version])
    ∧ (∀ e, (execMigration env m db).1 = Except.error e → (execMigration env m db).2 = db)
    ∧ (∀ data e, env.readFileResult = Except.ok data → env.beginTxResult = none →
        env.execResult data = some e →
        execMigration env m db = (Except.error (ExecError.execFailed e), db))
    ∧ (∀ data e, env.readFileResult = Except.ok data → env.beginTxResult = none →
        env.execResult data = none → env.addVersionResult = some e →
        execMigration env m db = (Except.error (ExecError.setVersionFailed e), db)) := by
  obtain ⟨rd, bg, ex, av, cm, rb⟩ := env
  refine ⟨fun r => rfl, ?_, ?_, ?_, ?_⟩
  · intro data hrd hok
    have hrd2 : rd = Except.ok data := hrd
    subst hrd2
    cases bg with
    | some e => exact absurd hok (by simp [execMigration])
    | none =>
      cases hex : ex data with
      | some e => exact absurd hok (by simp [execMigration, hex])
      | none =>
        cases av with
        | some e => exact absurd hok (by simp [execMigration, hex])
        | none =>
          cases cm with
          | some e => exact absurd hok (by simp [execMigration, hex])
          | none => simp [execMigration, hex]
  · intro e herr
    cases rd with
    | error e2 => rfl
    | ok data =>
      cases bg with
      | some e2 => rfl
      | none =>
        cases hex : ex data with
        | some e2 => simp [execMigration, hex]
        | none =>
          cases av with
          | some e2 => simp [execMigration, hex]
          | none =>
            cases cm with
            | some e2 => simp [execMigration, hex]
            | none => exact absurd herr (by simp [execMigration, hex])
  · intro data e hrd hbg hex
    have hrd2 : rd = Except.ok data := hrd
    have hbg2 : bg = none := hbg
    have hex2 : ex data = some e := hex
    subst hrd2
    subst hbg2
    simp [execMigration, hex2]
  · intro data e hrd hbg hex hav
    have hrd2 : rd = Except.ok data := hrd
    have hbg2 : bg = none := hbg
    have hex2 : ex data = none := hex
    have hav2 : av = some e := hav
    subst hrd2
    subst hbg2
    subst hav2
    simp [execMigration, hex2]

/-- Witness for C3: an SQL execution failure rolls back — the returned
pair is the execution error with the durable state unchanged, even
though the rollback itself also failed. -/
theorem c3_witness :
    execMigration
        ⟨Except.ok "CREATE TABLE t (x);", none, fun _ => some "syntax error",
         none, none, some "rollback failed too"⟩
        ⟨"a", 1, "", "migrations/1_a.sql"⟩ ⟨[]⟩
      = (Except.error (ExecError.execFailed "syntax error"), ⟨[]⟩) :=
  (c3_transactional_atomicity
      ⟨Except.ok "CREATE TABLE t (x);", none, fun _ => some "syntax error",
       none, none, some "rollback failed too"⟩
      ⟨"a", 1, "", "migrations/1_a.sql"⟩ ⟨[]⟩).2.2.2.1
    "CREATE TABLE t (x);" "syntax error" rfl rfl rfl

/-- Claim C4: when the stored current version equals the last (highest)
resolved migration's version, `Migrate` returns success without
consulting the executor at all — a rerun with no new migration files
performs no schema change and no version write. -/
theorem c4_idempotent_noop (env : MigrateEnv) (migs : List migration) (lastM : migration)
    (hdb : env.dbPresent = true) (hdrv : env.newDriverPresent = true)
    (hload : loadMigrations env.entries env.directory env.driverName = Except.ok migs)
    (hlast : migs.getLast? = some lastM)
    (hct : env.createVersionTableResult = none)
    (hgv : env.getVersionResult = Except.ok lastM.version) :
    Migrate env = Except.ok ()
    ∧ ∀ exec2, Migrate { env with exec := exec2 } = Except.ok () := by
  have key : ∀ exec2, Migrate { env with exec := exec2 } = Except.ok () := by
    intro exec2
    simp [Migrate, hdb, hdrv, hload, hlast, hct, hgv]
  exact ⟨key env.exec, key⟩

/-- Witness for C4: a database already at version 1 with a single
version-1 migration file is a successful no-op. -/
theorem c4_witness :
    Migrate ⟨true, true, Except.ok [⟨"1_init.sql", false⟩], "migrations", "postgres",
             none, Except.ok 1, fun _ => Except.ok ()⟩ = Except.ok () :=
  (c4_idempotent_noop
      ⟨true, true, Except.ok [⟨"1_init.sql", false⟩], "migrations", "postgres",
       none, Except.ok 1, fun _ => Except.ok ()⟩
      [⟨"init", 1, "", "migrations/1_init.sql"⟩]
      ⟨"init", 1, "", "migrations/1_init.sql"⟩
      rfl rfl rfl rfl rfl rfl).1

/-- Claim C5: when the stored current version strictly exceeds the
highest resolved migration version, `Migrate` fails with the
schema-ahead error reporting both version numbers (the last migration's
version being the maximum of the sorted list), and the executor is
consulted for no migration, so nothing is written. -/
theorem c5_no_downgrade (env : MigrateEnv) (migs : List migration) (lastM : migration)
    (current : Int)
    (hdb : env.dbPresent = true) (hdrv : env.newDriverPresent = true)
    (hload : loadMigrations env.entries env.directory env.driverName = Except.ok migs)
    (hsorted : List.Chain' (fun a b => a.version < b.version) migs)
    (hlast : migs.getLast? = some lastM)
    (hct : env.createVersionTableResult = none)
    (hgv : env.getVersionResult = Except.ok current)
    (hgt : lastM.version < current) :
    Migrate env = Except.error (MigrateErr.schemaAhead current lastM.version)
    ∧ (∀ m ∈ migs, m.version ≤ lastM.version)
    ∧ ∀ exec2, Migrate { env with exec := exec2 }
        = Except.error (MigrateErr.schemaAhead current lastM.version) := by
  have hmax := version_le_getLast migs lastM hsorted hlast
  have hne : ¬ current = lastM.version := ne_of_gt hgt
  have key : ∀ exec2, Migrate { env with exec := exec2 }
      = Except.error (MigrateErr.schemaAhead current lastM.version) := by
    intro exec2
    simp [Migrate, hdb, hdrv, hload, hlast, hct, hgv, hne, hgt]
  exact ⟨key env.exec, hmax, key⟩

/-- Witness for C5: a database at version 5 with only a version-1
migration file fails reporting both versions and touches nothing. -/
theorem c5_witness :
    Migrate ⟨true, true, Except.ok [⟨"1_init.sql", false⟩], "migrations", "postgres",
             none, Except.ok 5, fun _ => Except.ok ()⟩
      = Except.error (MigrateErr.schemaAhead 5 1) :=
  (c5_no_downgrade
      ⟨true, true, Except.ok [⟨"1_init.sql", false⟩], "migrations", "postgres",
       none, Except.ok 5, fun _ => Except.ok ()⟩
      [⟨"init", 1, "", "migrations/1_init.sql"⟩]
      ⟨"init", 1, "", "migrations/1_init.sql"⟩ 5
      rfl rfl rfl (by simp) rfl rfl rfl (by norm_num)).1

/-- Counterexample to claim C6: a directory holding only
`5_bad_name.sqll` does not make resolution fail — the resolver skips
files without the `.sql` suffix and returns the empty list with no
error. -/
theorem c6_counterexample :
    loadMigrations (Except.ok [⟨"5_bad_name.sqll", false⟩]) "migrations" "postgres"
        = Except.ok []
    ∧ ∀ e : LoadError,
        loadMigrations (Except.ok [⟨"5_bad_name.sqll", false⟩]) "migrations" "postgres"
          ≠ Except.error e := by
  constructor
  · rfl
  · intro e h
    rw [show loadMigrations (Except.ok [⟨"5_bad_name.sqll", false⟩]) "migrations" "postgres"
          = Except.ok [] from rfl] at h
    exact Except.noConfusion h

/-- Claim C6 amended: the resolver skips every entry whose name lacks
the `.sql` suffix, so a listing containing only such files resolves to
the empty list without error, after which `Migrate` fails with the
no-migrations-found error; the invalid-extension error arises only from
`parseMigrationFileName` applied directly to such a name. -/
theorem c6_amended_skip_bad_extension :
    (∀ (dir driver : String) (entries : List DirEntry),
        (∀ e ∈ entries, hasSuffix e.name migrationFileExt = false) →
        loadMigrations (Except.ok entries) dir driver = Except.ok [])
    ∧ (∀ (dir fileName : String), hasSuffix fileName migrationFileExt = false →
        parseMigrationFileName dir fileName
          = Except.error (ParseError.invalidExtension fileName))
    ∧ Migrate ⟨true, true, Except.ok [⟨"5_bad_name.sqll", false⟩], "migrations", "postgres",
               none, Except.ok 0, fun _ => Except.ok ()⟩
        = Except.error (MigrateErr.noMigrationsFound "migrations") := by
  refine ⟨?_, ?_, rfl⟩
  · intro dir driver entries h
    show (loadMigrationsLoop dir driver entries []).map sortMigrations = Except.ok []
    rw [loadMigrationsLoop_skip_all dir driver entries h]
    rfl
  · intro dir fileName h
    have hnone : cutSuffix fileName migrationFileExt = none := by
      cases hcs : cutSuffix fileName migrationFileExt with
      | none => rfl
      | some s => simp [hasSuffix, hcs] at h
    simp [parseMigrationFileName, hnone]

/-- Witness for C6 amended: a listing of a README and a misspelled
`.sqll` file resolves to the empty list. -/
theorem c6_witness :
    loadMigrations (Except.ok [⟨"README.md", false⟩, ⟨"5_bad_name.sqll", false⟩])
        "migrations" "sqlite" = Except.ok [] :=
  c6_amended_skip_bad_extension.1 "migrations" "sqlite"
    [⟨"README.md", false⟩, ⟨"5_bad_name.sqll", false⟩] (by decide)

/-- Counterexample to claim C7: the parser accepts `1_.sql` (empty name
part) and `-1_x.sql` (negative version) — the split-on-first-underscore
check does not require non-empty parts and `Atoi` accepts signed
integers. -/
theorem c7_counterexample :
    parseMigrationFileName "migrations" "1_.sql"
        = Except.ok ⟨"", 1, "", "migrations/1_.sql"⟩
    ∧ parseMigrationFileName "migrations" "-1_x.sql"
        = Except.ok ⟨"x", -1, "", "migrations/-1_x.sql"⟩ :=
  ⟨rfl, rfl⟩

/-- Claim C7 amended: for a filename ending in `.sql`, the parser fails
with the invalid-file-name error exactly when the stem left of any
driver suffix contains no underscore; when the stem does split, the
parser fails exactly on `Atoi` failure of the version segment (signed
versions allowed) and otherwise succeeds, with no requirement that the
split parts be non-empty or the version non-negative. -/
theorem c7_amended_split_and_version (dir fileName stem : String)
    (h : cutSuffix fileName migrationFileExt = some stem) :
    (parseMigrationFileName dir fileName
        = Except.error (ParseError.invalidFileName fileName)
      ↔ migrationSeparator ∉ (driverSplit stem).1.data)
    ∧ (∀ verStr namePart e,
        splitFirst (driverSplit stem).1 migrationSeparator = some (verStr, namePart) →
        atoi verStr = Except.error e →
        parseMigrationFileName dir fileName = Except.error (ParseError.parseVersion e))
    ∧ (∀ verStr namePart v,
        splitFirst (driverSplit stem).1 migrationSeparator = some (verStr, namePart) →
        atoi verStr = Except.ok v →
        parseMigrationFileName dir fileName
          = Except.ok ⟨replaceAll namePart migrationSeparator ' ', v,
                       (driverSplit stem).2, pathJoin dir fileName⟩) := by
  refine ⟨?_, ?_, ?_⟩
  · rw [← splitFirst_eq_none_iff (driverSplit stem).1 migrationSeparator]
    cases hsp : splitFirst (driverSplit stem).1 migrationSeparator with
    | none => simp [parseMigrationFileName, h, hsp]
    | some vr =>
      simp only [parseMigrationFileName, h, hsp]
      cases ha : atoi vr.1 with
      | error e => simp [ha]
      | ok v => simp [ha]
  · intro verStr namePart e hsp ha
    simp [parseMigrationFileName, h, hsp, ha]
  · intro verStr namePart v hsp ha
    simp [parseMigrationFileName, h, hsp, ha]

/-- Witness for C7 amended: `42.sql` has no underscore in its stem and
is rejected with the invalid-file-name error. -/
theorem c7_witness :
    parseMigrationFileName "migrations" "42.sql"
      = Except.error (ParseError.invalidFileName "42.sql") :=
  (c7_amended_split_and_version "migrations" "42.sql" "42" rfl).1.mpr (by decide)

/-- Counterexample to claim C8: for `1_a.b.c.sql` the code takes
everything after the *first* dot of the stem as the driver tag, yielding
`b.c`, not the last segment `c`. -/
theorem c8_counterexample :
    parseMigrationFileName "migrations" "1_a.b.c.sql"
        = Except.ok ⟨"a", 1, "b.c", "migrations/1_a.b.c.sql"⟩
    ∧ ("b.c" : String) ≠ "c" :=
  ⟨rfl, by decide⟩

/-- Claim C8 amended: when the stem before the `.sql` extension
contains a dot, the parsed driver tag is everything after the first dot
(the stem part before it being dot-free); with no dot in the stem the
driver tag is empty. -/
theorem c8_amended_driver_after_first_dot (dir fileName stem pre suf : String)
    (h1 : cutSuffix fileName migrationFileExt = some stem)
    (h2 : splitFirst stem migrationDriverSeparator = some (pre, suf)) :
    stem.data = pre.data ++ migrationDriverSeparator :: suf.data
    ∧ migrationDriverSeparator ∉ pre.data
    ∧ (∀ mig, parseMigrationFileName dir fileName = Except.ok mig → mig.driver = suf)
    ∧ (∀ (dir2 fn2 stem2 : String), cutSuffix fn2 migrationFileExt = some stem2 →
        splitFirst stem2 migrationDriverSeparator = none →
        ∀ mig2, parseMigrationFileName dir2 fn2 = Except.ok mig2 → mig2.driver = "") := by
  obtain ⟨hs, hn⟩ := splitFirst_eq_some stem migrationDriverSeparator pre suf h2
  refine ⟨hs, hn, ?_, ?_⟩
  · intro mig hmig
    cases hsp : splitFirst pre migrationSeparator with
    | none => simp [parseMigrationFileName, h1, driverSplit, h2, hsp] at hmig
    | some vr =>
      cases ha : atoi vr.1 with
      | error e => simp [parseMigrationFileName, h1, driverSplit, h2, hsp, ha] at hmig
      | ok v =>
        simp [parseMigrationFileName, h1, driverSplit, h2, hsp, ha] at hmig
        rw [← hmig]
  · intro dir2 fn2 stem2 hc hsp0 mig2 hmig
    cases hsp : splitFirst stem2 migrationSeparator with
    | none => simp [parseMigrationFileName, hc, driverSplit, hsp0, hsp] at hmig
    | some vr =>
      cases ha : atoi vr.1 with
      | error e => simp [parseMigrationFileName, hc, driverSplit, hsp0, hsp, ha] at hmig
      | ok v =>
        simp [parseMigrationFileName, hc, driverSplit, hsp0, hsp, ha] at hmig
        rw [← hmig]

/-- Witness for C8 amended: the migration parsed from `1_a.b.c.sql`
carries driver tag `b.c`. -/
theorem c8_witness :
    (⟨"a", 1, "b.c", "migrations/1_a.b.c.sql"⟩ : migration).driver = "b.c" :=
  (c8_amended_driver_after_first_dot "migrations" "1_a.b.c.sql" "1_a.b.c" "1_a" "b.c"
      rfl rfl).2.2.1 ⟨"a", 1, "b.c", "migrations/1_a.b.c.sql"⟩ rfl

/-- Claim C9 (code bug): the resolver's comparator is the wrapping
64-bit subtraction `m1.version - m2.version`; for the versions parsed
from `9223372036854775807_a.sql` and `-9223372036854775808_b.sql` the
difference wraps to `-1`, so the returned list is descending — the
adjacent-pair ascending property fails at this input. -/
theorem c9_sort_overflow_bug :
    loadMigrations
        (Except.ok [⟨"9223372036854775807_a.sql", false⟩, ⟨"-9223372036854775808_b.sql", false⟩])
        "migrations" "postgres"
      = Except.ok [⟨"a", 2 ^ 63 - 1, "", "migrations/9223372036854775807_a.sql"⟩,
                   ⟨"b", -(2 ^ 63), "", "migrations/-9223372036854775808_b.sql"⟩]
    ∧ ¬ ((2 ^ 63 - 1 : Int) < -(2 ^ 63 : Int))
    ∧ cmpMigration ⟨"a", 2 ^ 63 - 1, "", ""⟩ ⟨"b", -(2 ^ 63), "", ""⟩ = -1 := by
  refine ⟨rfl, by decide, ?_⟩
  simp only [cmpMigration, wrap64]
  norm_num

/-- Claim C10: duplicate detection is order sensitive — once a
driver-specific migration holds a version slot, any later universal
migration at that version is silently dropped without error (first
conjunct, in general); concretely, a listing with the driver-specific
file first resolves to just that file, while the same files with the
two universal ones first fail with the duplicate-version-and-driver
error. -/
theorem c10_order_sensitive_dedup :
    (∀ (driver : String) (mig m : migration) (pre rest : List migration),
        (∀ x ∈ pre, x.version ≠ mig.version) → m.version = mig.version →
        m.driver = driver → mig.driver = "" → mig.driver ≠ driver →
        insertMigration driver mig (pre ++ m :: rest) = Except.ok (pre ++ m :: rest))
    ∧ loadMigrations
        (Except.ok [⟨"1_a.postgres.sql", false⟩, ⟨"1_b.sql", false⟩, ⟨"1_c.sql", false⟩])
        "migrations" "postgres"
      = Except.ok [⟨"a", 1, "postgres", "migrations/1_a.postgres.sql"⟩]
    ∧ loadMigrations
        (Except.ok [⟨"1_b.sql", false⟩, ⟨"1_c.sql", false⟩, ⟨"1_a.postgres.sql", false⟩])
        "migrations" "postgres"
      = Except.error (LoadError.duplicateVersionAndDriver 1 "" "") := by
  refine ⟨?_, rfl, rfl⟩
  intro driver mig m pre rest hpre hv hm hmig hne
  rw [insertMigration_append_of_ne driver mig pre hpre]
  have hd : ¬ m.driver = mig.driver := fun h => hne (h.symm.trans hm)
  simp [insertMigration, Except.map, hv, hd, hne]

/-- Witness for C10: a universal version-1 migration arriving after a
driver-specific one at version 1 is dropped without error. -/
theorem c10_witness :
    insertMigration "postgres" ⟨"b", 1, "", "migrations/1_b.sql"⟩
        ([] ++ (⟨"a", 1, "postgres", "migrations/1_a.postgres.sql"⟩ : migration) :: [])
      = Except.ok ([] ++ (⟨"a", 1, "postgres", "migrations/1_a.postgres.sql"⟩ : migration) :: []) :=
  c10_order_sensitive_dedup.1 "postgres" ⟨"b", 1, "", "migrations/1_b.sql"⟩
    ⟨"a", 1, "postgres", "migrations/1_a.postgres.sql"⟩ [] []
    (fun x hx => absurd hx (List.not_mem_nil x)) rfl rfl rfl (by decide)

end Gomigrate
